import Mathlib

/-!
# Inflation Tracker — verification of the time-series core

Shallow embedding of the data-acquisition / parsing / metric core of
`src/app/page.tsx` (a single-file React inflation dashboard), together with
proofs of its specified properties.

JavaScript numbers are modelled as exact rationals (`ℚ`); the JS `NaN` that
`parseFloat` can produce is modelled as `Option ℚ` with `none` for `NaN`.
JS exceptions caught by `try`/`catch` are modelled with `Option`; `null` and
`undefined` results are modelled with `Option` as well.
-/

namespace InflationTracker

/-! ## Metric calculators

Embedding of `pctChangeYoY` and `pctChangeMoM` (`src/app/page.tsx` lines
27–39).  Both take the array of monthly index values (oldest → newest) and
return `null` (here `none`) when too few points exist; otherwise they return
the percentage-change formula applied to the last and the 13th/2nd-from-last
entries.  The source has no guard against a zero denominator.
-/

/-- Embeds `pctChangeYoY`: `if (!series || series.length < 13) return null;`
then `((latest - prevYear) / prevYear) * 100` with
`latest = series[series.length - 1]` and `prevYear = series[series.length - 13]`. -/
def pctChangeYoY (series : List ℚ) : Option ℚ :=
  if h : series.length < 13 then none
  else
    let latest := series.get ⟨series.length - 1, by omega⟩
    let prevYear := series.get ⟨series.length - 13, by omega⟩
    some ((latest - prevYear) / prevYear * 100)

/-- Embeds `pctChangeMoM`: `if (!series || series.length < 2) return null;`
then `((latest - prev) / prev) * 100` with
`latest = series[series.length - 1]` and `prev = series[series.length - 2]`. -/
def pctChangeMoM (series : List ℚ) : Option ℚ :=
  if h : series.length < 2 then none
  else
    let latest := series.get ⟨series.length - 1, by omega⟩
    let prev := series.get ⟨series.length - 2, by omega⟩
    some ((latest - prev) / prev * 100)

/-- **C1.** For fewer than 13 points `pctChangeYoY` returns `none` ("absent");
for at least 13 points it returns exactly
`(values[-1] − values[-13]) / values[-13] × 100`. -/
theorem pctChangeYoY_spec (vs : List ℚ) :
    (vs.length < 13 → pctChangeYoY vs = none) ∧
    ∀ h : 13 ≤ vs.length,
      pctChangeYoY vs =
        some ((vs.get ⟨vs.length - 1, by omega⟩ - vs.get ⟨vs.length - 13, by omega⟩)
          / vs.get ⟨vs.length - 13, by omega⟩ * 100) := by
  constructor
  · intro h
    simp [pctChangeYoY, h]
  · intro h
    simp [pctChangeYoY, Nat.not_lt.mpr h]

/-- Witness for C1: a 12-point series yields `none`, and the 13-point series
`[100, 0, …, 0, 105]` yields `(105 − 100)/100 × 100 = 5`. -/
theorem pctChangeYoY_spec_witness :
    pctChangeYoY [100, 0, 0, 0, 0, 0, 0, 0, 0, 0, 0, 0] = none ∧
    pctChangeYoY [100, 0, 0, 0, 0, 0, 0, 0, 0, 0, 0, 0, 105] = some 5 := by
  constructor
  · exact (pctChangeYoY_spec [100, 0, 0, 0, 0, 0, 0, 0, 0, 0, 0, 0]).1 (by decide)
  · have h := (pctChangeYoY_spec [100, 0, 0, 0, 0, 0, 0, 0, 0, 0, 0, 0, 105]).2 (by decide)
    rw [h]; norm_num

/-- **C2.** For fewer than 2 points `pctChangeMoM` returns `none` ("absent");
for at least 2 points it returns exactly
`(values[-1] − values[-2]) / values[-2] × 100`. -/
theorem pctChangeMoM_spec (vs : List ℚ) :
    (vs.length < 2 → pctChangeMoM vs = none) ∧
    ∀ h : 2 ≤ vs.length,
      pctChangeMoM vs =
        some ((vs.get ⟨vs.length - 1, by omega⟩ - vs.get ⟨vs.length - 2, by omega⟩)
          / vs.get ⟨vs.length - 2, by omega⟩ * 100) := by
  constructor
  · intro h
    simp [pctChangeMoM, h]
  · intro h
    simp [pctChangeMoM, Nat.not_lt.mpr h]

/-- Witness for C2: a 1-point series yields `none`, and `[200, 201]` yields
`(201 − 200)/200 × 100 = 1/2`. -/
theorem pctChangeMoM_spec_witness :
    pctChangeMoM [200] = none ∧ pctChangeMoM [200, 201] = some (1/2) := by
  constructor
  · exact (pctChangeMoM_spec [200]).1 (by decide)
  · have h := (pctChangeMoM_spec [200, 201]).2 (by decide)
    rw [h]; norm_num

/-- **C3 counterexample.** With 13 points and a zero denominator
(`values[-13] = 0`) the claim says `pctChangeYoY` returns "absent"; the code
has no zero guard, so it returns a present value. -/
theorem pctChangeYoY_zero_denominator_not_absent :
    pctChangeYoY [0, 1, 1, 1, 1, 1, 1, 1, 1, 1, 1, 1, 5] ≠ none := by
  decide

/-- **C3 amended.** The calculators do not guard against a zero denominator:
whenever the length requirement is met — in particular when the denominator
entry is exactly zero — they return a present (non-`none`) value, namely the
unguarded division result (`Infinity`/`NaN` in the JS source), never
"absent". -/
theorem pct_change_zero_denominator_unguarded (ys ms : List ℚ)
    (h13 : 13 ≤ ys.length) (_hy : ys.get? (ys.length - 13) = some 0)
    (h2 : 2 ≤ ms.length) (_hm : ms.get? (ms.length - 2) = some 0) :
    (pctChangeYoY ys).isSome = true ∧ (pctChangeMoM ms).isSome = true := by
  constructor
  · rw [(pctChangeYoY_spec ys).2 h13]; rfl
  · rw [(pctChangeMoM_spec ms).2 h2]; rfl

/-- Witness for the amended C3, at the zero-denominator inputs
`[0,1,…,1,5]` (YoY) and `[0, 7]` (MoM). -/
theorem pct_change_zero_denominator_unguarded_witness :
    (pctChangeYoY [0, 1, 1, 1, 1, 1, 1, 1, 1, 1, 1, 1, 5]).isSome = true ∧
    (pctChangeMoM [0, 7]).isSome = true :=
  pct_change_zero_denominator_unguarded
    [0, 1, 1, 1, 1, 1, 1, 1, 1, 1, 1, 1, 5] [0, 7]
    (by decide) (by decide) (by decide) (by decide)

/-! ## BLS payload model and the series parser

Embedding of `parseBlsSeries` (`src/app/page.tsx` lines 42–55).  The JSON
payload is modelled structurally: each property that the code dereferences is
an `Option` field (`none` models a missing/`undefined` property, after which a
further dereference throws a `TypeError` that the surrounding `try`/`catch`
turns into `[]`).  The `year`/`period`/`value` strings of a tuple are kept as
strings, since the code parses them itself.
-/

/-- One `{year, period, value}` entry of `Results.series[0].data`. -/
structure BlsTuple where
  year : Option String
  period : Option String
  value : Option String
deriving DecidableEq

/-- One entry of `Results.series`; the code only reads its `data` array. -/
structure RawSeries where
  data : Option (List BlsTuple)
deriving DecidableEq

/-- The `Results` object; the code only reads its `series` array. -/
structure RawResults where
  series : Option (List RawSeries)
deriving DecidableEq

/-- The whole payload; the code only reads its `Results` object. -/
structure BlsPayload where
  Results : Option RawResults
deriving DecidableEq

/-- Models a JS template-string interpolation site: `undefined` prints as the
string `"undefined"`. -/
def jsTemplateStr : Option String → String
  | some s => s
  | none => "undefined"

/-- Digits-to-number fold, `'0'–'9'` only (callers check `Char.isDigit`). -/
def digitsToNat (cs : List Char) : Nat :=
  cs.foldl (fun n c => n * 10 + (c.toNat - 48)) 0

/-- `s` is a four-character decimal string (the shape of a BLS `year`). -/
def isFourDigits (s : String) : Bool :=
  s.length == 4 && s.toList.all Char.isDigit

/-- `m` is a two-digit string denoting a calendar month `01`–`12`. -/
def isMonthStr (m : String) : Bool :=
  m.length == 2 && m.toList.all Char.isDigit
    && 1 ≤ digitsToNat m.toList && digitsToNat m.toList ≤ 12

/-- Models `new Date(year + "-" + period.substr(1) + "-01")` of the source:
`year` is interpolated (so a missing `year` becomes `"undefined"`), the month
is `period` minus its first character, and the day is the literal `"01"`.
`new Date` on a well-formed ISO string `"YYYY-MM-01"` with month `01`–`12`
yields a timestamp strictly monotone in (year, month); we use the month index
`year*12 + month − 1` as an order-faithful surrogate for that timestamp.  Any
other string (month `"13"`, `"undefined"` year, non-digit text) yields an
Invalid Date, modelled as `none`. -/
def blsDate (year : Option String) (period : String) : Option Int :=
  let y := jsTemplateStr year
  let m := period.drop 1
  if isFourDigits y && isMonthStr m then
    some ((digitsToNat y.toList : Int) * 12 + (digitsToNat m.toList : Int) - 1)
  else none

/-- Models JS `parseFloat` on the decimal strings this API produces: skips an
optional sign, then reads the longest `digits[.digits]` prefix; if no digit is
found the result is `NaN`, modelled as `none` (also for
`parseFloat(undefined)`).  Exponents, `Infinity` and leading whitespace are
not modelled: BLS `value` strings never contain them. -/
def jsParseFloat : Option String → Option ℚ
  | none => none
  | some s =>
    let cs := s.toList
    let signRest : ℚ × List Char :=
      match cs with
      | '-' :: rest => (-1, rest)
      | '+' :: rest => (1, rest)
      | _ => (1, cs)
    let intPart := signRest.2.takeWhile Char.isDigit
    let rest := signRest.2.dropWhile Char.isDigit
    let fracPart : List Char :=
      match rest with
      | '.' :: r => r.takeWhile Char.isDigit
      | _ => []
    if intPart.isEmpty && fracPart.isEmpty then none
    else some (signRest.1 *
      ((digitsToNat intPart : ℚ) + (digitsToNat fracPart : ℚ) / (10 : ℚ) ^ fracPart.length))

/-- The parsed `{date, value}` record: `date` is `none` for an Invalid Date,
`value` is `none` for `NaN`. -/
structure SeriesPoint where
  date : Option Int
  value : Option ℚ
deriving DecidableEq

/-- Models the comparator `(a, b) => a.date - b.date` as a sort predicate
"`a` need not move after `b`": for two valid dates this is `a.date ≤ b.date`;
if either date is Invalid the subtraction is `NaN`, which the sort treats as
`0` (keep relative order), modelled as `true`. -/
def dateLe : Option Int → Option Int → Bool
  | some x, some y => decide (x ≤ y)
  | _, _ => true

/-- The comparator lifted to points. -/
def pointLe (a b : SeriesPoint) : Bool := dateLe a.date b.date

/-- Insertion sort with a Bool predicate, modelling `Array.prototype.sort`
with a comparator: on a consistent comparator (total and transitive, as the
date comparator is on valid dates) any comparison sort produces the same
sorted permutation, which is all the source relies on. -/
def jsSortInsert (le : α → α → Bool) (x : α) : List α → List α
  | [] => [x]
  | y :: ys => if le x y then x :: y :: ys else y :: jsSortInsert le x ys

/-- The sort itself; see `jsSortInsert`. -/
def jsSort (le : α → α → Bool) : List α → List α
  | [] => []
  | x :: xs => jsSortInsert le x (jsSort le xs)

/-- Models one step of `series.data.map((d) => ({date: …, value: …}))`: the
map body dereferences `d.period.substr`, so a tuple with a missing `period`
throws (`none` overall); otherwise each tuple becomes a `SeriesPoint`. -/
def mapTuples : List BlsTuple → Option (List SeriesPoint)
  | [] => some []
  | d :: rest =>
    match d.period with
    | none => none
    | some p =>
      (mapTuples rest).map
        (fun ps => { date := blsDate d.year p, value := jsParseFloat d.value } :: ps)

/-- Models the property-access chain
`json.Results.series[0].data` inside the `try` block: any missing link makes
the next dereference throw, hence `none`.  (`series[0]` of an empty array is
`undefined`, so `.data` throws.) -/
def extractData (json : BlsPayload) : Option (List BlsTuple) := do
  let results ← json.Results
  let arr ← results.series
  let first ← arr.head?
  first.data

/-- Embeds `parseBlsSeries`: extract `Results.series[0].data`, map each tuple
to a `{date, value}` point, sort by date, and return `[]` if anything in the
`try` block threw. -/
def parseBlsSeries (json : BlsPayload) : List SeriesPoint :=
  match (extractData json).bind mapTuples with
  | some pts => jsSort pointLe pts
  | none => []

/-! ### Sort infrastructure -/

theorem mem_jsSortInsert {le : α → α → Bool} {x a : α} :
    ∀ {l : List α}, a ∈ jsSortInsert le x l → a = x ∨ a ∈ l
  | [], h => by
    simp [jsSortInsert] at h
    exact Or.inl h
  | y :: ys, h => by
    by_cases hxy : le x y = true
    · simp [jsSortInsert, hxy] at h
      rcases h with h | h | h
      · exact Or.inl h
      · exact Or.inr (by simp [h])
      · exact Or.inr (by simp [h])
    · simp [jsSortInsert, hxy] at h
      rcases h with h | h
      · exact Or.inr (by simp [h])
      · rcases mem_jsSortInsert h with h' | h'
        · exact Or.inl h'
        · exact Or.inr (by simp [h'])

theorem jsSortInsert_perm (le : α → α → Bool) (x : α) :
    ∀ l : List α, (jsSortInsert le x l).Perm (x :: l)
  | [] => by simp [jsSortInsert]
  | y :: ys => by
    by_cases hxy : le x y = true
    · simp [jsSortInsert, hxy]
    · simp only [jsSortInsert, hxy, if_neg]
      exact ((jsSortInsert_perm le x ys).cons y).trans (List.Perm.swap x y ys)

theorem jsSort_perm (le : α → α → Bool) : ∀ l : List α, (jsSort le l).Perm l
  | [] => by simp [jsSort]
  | x :: xs =>
    (jsSortInsert_perm le x (jsSort le xs)).trans ((jsSort_perm le xs).cons x)

theorem jsSortInsert_pairwise {le : α → α → Bool} {P : α → Prop} {x : α}
    (trans : ∀ a b c, P a → P b → P c → le a b = true → le b c = true → le a c = true)
    (total : ∀ a b, P a → P b → le a b = true ∨ le b a = true)
    (hx : P x) :
    ∀ {l : List α}, (∀ a ∈ l, P a) →
      l.Pairwise (fun a b => le a b = true) →
      (jsSortInsert le x l).Pairwise (fun a b => le a b = true)
  | [], _, _ => by simp [jsSortInsert]
  | y :: ys, hl, hs => by
    have hy : P y := hl y (by simp)
    have hys : ∀ a ∈ ys, P a := fun a ha => hl a (by simp [ha])
    rcases List.pairwise_cons.mp hs with ⟨hyb, hsys⟩
    by_cases hxy : le x y = true
    · simp only [jsSortInsert, hxy, if_pos]
      refine List.pairwise_cons.mpr ⟨?_, hs⟩
      intro b hb
      rcases List.mem_cons.mp hb with hb | hb
      · exact hb ▸ hxy
      · exact trans x y b hx hy (hys b hb) hxy (hyb b hb)
    · simp only [jsSortInsert, hxy, if_neg]
      refine List.pairwise_cons.mpr ⟨?_, jsSortInsert_pairwise trans total hx hys hsys⟩
      intro b hb
      rcases mem_jsSortInsert hb with hb | hb
      · rw [hb]
        rcases total x y hx hy with h | h
        · exact absurd h hxy
        · exact h
      · exact hyb b hb

theorem jsSort_pairwise {le : α → α → Bool} {P : α → Prop}
    (trans : ∀ a b c, P a → P b → P c → le a b = true → le b c = true → le a c = true)
    (total : ∀ a b, P a → P b → le a b = true ∨ le b a = true) :
    ∀ {l : List α}, (∀ a ∈ l, P a) →
      (jsSort le l).Pairwise (fun a b => le a b = true)
  | [], _ => by simp [jsSort]
  | x :: xs, hl => by
    have hx : P x := hl x (by simp)
    have hxs : ∀ a ∈ xs, P a := fun a ha => hl a (by simp [ha])
    have hsorted := jsSort_pairwise trans total hxs
    have hmem : ∀ a ∈ jsSort le xs, P a := by
      intro a ha
      exact hxs a ((jsSort_perm le xs).mem_iff.mp ha)
    exact jsSortInsert_pairwise trans total hx hmem hsorted

/-! ### Parser lemmas and claims -/

/-- The date a tuple's `{year, period}` pair parses to (the map body's `date`
field); `none` when `period` is missing, in which case the real map body
throws before building any date. -/
def tupleDate (d : BlsTuple) : Option Int :=
  match d.period with
  | some p => blsDate d.year p
  | none => none

/-- The map body of the parser, as a total function on tuples whose `period`
is present (`mapTuples` is `none` otherwise). -/
def tupleToPoint (d : BlsTuple) : SeriesPoint :=
  { date := tupleDate d, value := jsParseFloat d.value }

theorem mapTuples_eq_map :
    ∀ {ds : List BlsTuple}, (∀ d ∈ ds, d.period.isSome = true) →
      mapTuples ds = some (ds.map tupleToPoint)
  | [], _ => rfl
  | d :: rest, h => by
    have hd := h d (by simp)
    match hp : d.period with
    | none => rw [hp] at hd; simp at hd
    | some p =>
      have hrest := mapTuples_eq_map (fun d' hd' => h d' (List.mem_cons_of_mem d hd'))
      simp [mapTuples, hp, hrest, tupleToPoint, tupleDate]

theorem mapTuples_eq_none :
    ∀ {ds : List BlsTuple}, (ds.any fun d => d.period.isNone) = true →
      mapTuples ds = none
  | d :: rest, h => by
    match hp : d.period with
    | none => simp [mapTuples, hp]
    | some p =>
      have hrest : (rest.any fun d => d.period.isNone) = true := by
        simp only [List.any_cons, hp, Option.isNone_some, Bool.false_or] at h
        exact h
      simp [mapTuples, hp, mapTuples_eq_none hrest]

/-- **C10.** For a payload whose `Results.series[0].data` holds `n` tuples
(each with its `period` field present, so that `period.substr` does not
throw), the parser returns exactly `n` points — a permutation of the pointwise
translation of the tuples.  Nothing is filtered: annual-average tuples
(period `"M13"`) come out as points with an Invalid Date, and tuples with
non-numeric values come out with a `NaN` value, rather than being dropped or
emptying the series. -/
theorem parseBlsSeries_keeps_all_tuples (json : BlsPayload) (r : RawResults)
    (arr : List RawSeries) (e : RawSeries) (ds : List BlsTuple)
    (h1 : json.Results = some r) (h2 : r.series = some arr)
    (h3 : arr.head? = some e) (h4 : e.data = some ds)
    (h5 : ∀ d ∈ ds, d.period.isSome = true) :
    (parseBlsSeries json).length = ds.length ∧
    (parseBlsSeries json).Perm (ds.map tupleToPoint) := by
  have hex : extractData json = some ds := by
    simp [extractData, h1, h2, h3, h4]
  have hmap := mapTuples_eq_map h5
  have hrw : parseBlsSeries json = jsSort pointLe (ds.map tupleToPoint) := by
    simp [parseBlsSeries, hex, hmap]
  rw [hrw]
  have hperm := jsSort_perm pointLe (ds.map tupleToPoint)
  exact ⟨hperm.length_eq.trans (by simp), hperm⟩

/-- Concrete input for the C10 witness: an annual-average tuple (`"M13"`), a
tuple with a non-numeric value, and an ordinary tuple. -/
def exTuplesKeepAll : List BlsTuple :=
  [ { year := some "2023", period := some "M13", value := some "304.70" },
    { year := some "2023", period := some "M01", value := some "n/a" },
    { year := some "2023", period := some "M02", value := some "300.84" } ]

/-- Payload wrapping `exTuplesKeepAll`. -/
def exPayloadKeepAll : BlsPayload :=
  { Results := some { series := some [ { data := some exTuplesKeepAll } ] } }

/-- Witness for C10 at a concrete 3-tuple payload. -/
theorem parseBlsSeries_keeps_all_tuples_witness :
    (parseBlsSeries exPayloadKeepAll).length = 3 ∧
    (parseBlsSeries exPayloadKeepAll).Perm (exTuplesKeepAll.map tupleToPoint) := by
  have h := parseBlsSeries_keeps_all_tuples exPayloadKeepAll _ _ _ exTuplesKeepAll
    rfl rfl rfl rfl (by decide)
  exact ⟨h.1, h.2⟩

/-- **C4 counterexample.**  A structurally sound payload whose only tuples
carry an unparsable date (annual-average period `"M13"`) and an unparsable
value (`"abc"`).  The claim says the parser returns an empty series on
unparsable dates or values; the code keeps both tuples (as an Invalid-Date
point and a `NaN`-value point), so the result is not empty. -/
theorem parseBlsSeries_unparsable_not_empty :
    parseBlsSeries
        { Results := some
            { series := some
                [ { data := some
                      [ { year := some "2023", period := some "M13", value := some "304.70" },
                        { year := some "2023", period := some "M01", value := some "abc" } ] } ] } }
      ≠ [] := by
  decide

/-- The stages at which an access in the parser's `try` block throws: missing
`Results`, missing `series`, empty `series` array (`series[0]` is
`undefined`), missing `data`, or a tuple with no `period` (so
`period.substr(1)` throws). -/
def structureBroken (json : BlsPayload) : Bool :=
  match json.Results with
  | none => true
  | some r =>
    match r.series with
    | none => true
    | some arr =>
      match arr.head? with
      | none => true
      | some e =>
        match e.data with
        | none => true
        | some ds => ds.any fun d => d.period.isNone

/-- **C4 amended.**  When the payload is missing the expected array structure
at any stage — no `Results` object, no `series` array, an empty `series`
array, no `data` array, or a tuple without a `period` field — the parser
returns the empty series (and, being embedded as a total function whose
`try`/`catch` is the surrounding `Option` match, it never raises).  Tuples
with merely unparsable dates or values are *not* covered: they are retained
as Invalid-Date or `NaN` points (see the counterexample and C10). -/
theorem parseBlsSeries_broken_structure_empty (json : BlsPayload)
    (h : structureBroken json = true) :
    parseBlsSeries json = [] := by
  rcases hR : json.Results with _ | r
  · simp [parseBlsSeries, extractData, hR]
  rcases hS : r.series with _ | arr
  · simp [parseBlsSeries, extractData, hR, hS]
  rcases hH : arr.head? with _ | e
  · simp [parseBlsSeries, extractData, hR, hS, hH]
  rcases hD : e.data with _ | ds
  · simp [parseBlsSeries, extractData, hR, hS, hH, hD]
  have hds : (ds.any fun d => d.period.isNone) = true := by
    simpa [structureBroken, hR, hS, hH, hD] using h
  simp [parseBlsSeries, extractData, hR, hS, hH, hD, mapTuples_eq_none hds]

/-- Witness for the amended C4: a payload with no `Results` object, and a
structurally complete payload holding one tuple with no `period` field, both
parse to the empty series. -/
theorem parseBlsSeries_broken_structure_empty_witness :
    parseBlsSeries { Results := none } = [] ∧
    parseBlsSeries
        { Results := some
            { series := some
                [ { data := some
                      [ { year := some "2023", period := none, value := some "3.1" } ] } ] } }
      = [] :=
  ⟨parseBlsSeries_broken_structure_empty { Results := none } (by decide),
   parseBlsSeries_broken_structure_empty _ (by decide)⟩

/-- Strict date order on points: both dates valid and strictly increasing. -/
def dateLt : Option Int → Option Int → Bool
  | some x, some y => decide (x < y)
  | _, _ => false

theorem period_isSome_of_tupleDate {d : BlsTuple}
    (h : (tupleDate d).isSome = true) : d.period.isSome = true := by
  match hp : d.period with
  | some p => rfl
  | none => rw [tupleDate, hp] at h; simp at h

/-- **C5.**  For a well-formed payload — the structure is present, every
tuple's `{year, period}` parses to a valid calendar-month date, and those
dates are pairwise distinct — the parser's output is sorted strictly
ascending by the date built from each tuple's `year` and the numeric suffix
of its `period`, even when the tuples arrive out of chronological order. -/
theorem parseBlsSeries_sorted (json : BlsPayload) (r : RawResults)
    (arr : List RawSeries) (e : RawSeries) (ds : List BlsTuple)
    (h1 : json.Results = some r) (h2 : r.series = some arr)
    (h3 : arr.head? = some e) (h4 : e.data = some ds)
    (h5 : ∀ d ∈ ds, (tupleDate d).isSome = true)
    (h6 : (ds.map tupleDate).Pairwise (· ≠ ·)) :
    (parseBlsSeries json).Pairwise (fun a b => dateLt a.date b.date = true) := by
  have h5' : ∀ d ∈ ds, d.period.isSome = true :=
    fun d hd => period_isSome_of_tupleDate (h5 d hd)
  have hex : extractData json = some ds := by
    simp [extractData, h1, h2, h3, h4]
  have hrw : parseBlsSeries json = jsSort pointLe (ds.map tupleToPoint) := by
    simp [parseBlsSeries, hex, mapTuples_eq_map h5']
  rw [hrw]
  set pts := ds.map tupleToPoint with hpts
  have hperm := jsSort_perm pointLe pts
  -- every parsed point has a valid date
  have hvalid : ∀ p ∈ pts, p.date.isSome = true := by
    intro p hp
    rcases List.mem_map.mp hp with ⟨d, hd, hdp⟩
    rw [← hdp]
    exact h5 d hd
  -- the comparator is transitive and total on valid-date points
  have htrans : ∀ a b c : SeriesPoint, a.date.isSome = true → b.date.isSome = true →
      c.date.isSome = true → pointLe a b = true → pointLe b c = true →
      pointLe a c = true := by
    intro a b c ha hb hc hab hbc
    rcases Option.isSome_iff_exists.mp ha with ⟨x, hx⟩
    rcases Option.isSome_iff_exists.mp hb with ⟨y, hy⟩
    rcases Option.isSome_iff_exists.mp hc with ⟨z, hz⟩
    rw [pointLe, hx, hy] at hab
    rw [pointLe, hy, hz] at hbc
    rw [pointLe, hx, hz]
    simp only [dateLe, decide_eq_true_eq] at hab hbc ⊢
    omega
  have htotal : ∀ a b : SeriesPoint, a.date.isSome = true → b.date.isSome = true →
      pointLe a b = true ∨ pointLe b a = true := by
    intro a b ha hb
    rcases Option.isSome_iff_exists.mp ha with ⟨x, hx⟩
    rcases Option.isSome_iff_exists.mp hb with ⟨y, hy⟩
    rw [pointLe, hx, hy, pointLe, hy, hx]
    simp only [dateLe, decide_eq_true_eq]
    omega
  have hsorted : (jsSort pointLe pts).Pairwise (fun a b => pointLe a b = true) :=
    jsSort_pairwise htrans htotal hvalid
  -- pairwise-distinct dates, transported onto the sorted output
  have hne : pts.Pairwise (fun a b => a.date ≠ b.date) := by
    rw [hpts, List.pairwise_map]
    have h6' := List.pairwise_map.mp h6
    exact h6'.imp (by intro a b hab; simpa [tupleToPoint] using hab)
  have hnesorted : (jsSort pointLe pts).Pairwise (fun a b => a.date ≠ b.date) :=
    (List.Perm.pairwise_iff (fun hab h => hab h.symm) hperm).mpr hne
  have hvalidsorted : ∀ p ∈ jsSort pointLe pts, p.date.isSome = true :=
    fun p hp => hvalid p (hperm.mem_iff.mp hp)
  refine (hsorted.and hnesorted).imp_of_mem ?_
  intro a b ha hb hab
  rcases hab with ⟨hle, hne2⟩
  rcases Option.isSome_iff_exists.mp (hvalidsorted a ha) with ⟨x, hx⟩
  rcases Option.isSome_iff_exists.mp (hvalidsorted b hb) with ⟨y, hy⟩
  rw [pointLe, hx, hy] at hle
  rw [hx, hy] at hne2
  rw [hx, hy]
  simp only [dateLe, decide_eq_true_eq] at hle
  have hxy : x ≠ y := by simpa using hne2
  simp only [dateLt, decide_eq_true_eq]
  omega

/-- Concrete input for the C5 witness: three well-formed tuples arriving out
of chronological order (March, January, February 2024). -/
def exTuplesOutOfOrder : List BlsTuple :=
  [ { year := some "2024", period := some "M03", value := some "312.33" },
    { year := some "2024", period := some "M01", value := some "308.42" },
    { year := some "2024", period := some "M02", value := some "310.33" } ]

/-- Payload wrapping `exTuplesOutOfOrder`. -/
def exPayloadOutOfOrder : BlsPayload :=
  { Results := some { series := some [ { data := some exTuplesOutOfOrder } ] } }

/-- Witness for C5: the out-of-order March/January/February payload parses to
a strictly date-ascending series. -/
theorem parseBlsSeries_sorted_witness :
    (parseBlsSeries exPayloadOutOfOrder).Pairwise
      (fun a b => dateLt a.date b.date = true) :=
  parseBlsSeries_sorted exPayloadOutOfOrder _ _ _ exTuplesOutOfOrder
    rfl rfl rfl rfl (by decide) (by decide)

/-! ## Acquisition orchestrator

Embedding of `fetchSeries` and `useBlsData` (`src/app/page.tsx` lines 57–98).
The transport is a black box (spec §6): its outcome for one request is either
an HTTP response (with its `ok` flag, status and JSON body) or a network-level
fault, which `fetch` surfaces as a rejection.  The hook state
`{loading, error, data}` is modelled field by field. -/

/-- The three parsed series held by a `Ready` state. -/
structure BlsData where
  headlineNSA : List SeriesPoint
  headlineSA : List SeriesPoint
  coreSA : List SeriesPoint
deriving DecidableEq

/-- The `useState` record `{ loading, error, data }` of `useBlsData`. -/
structure HookState where
  loading : Bool
  error : Option String
  data : Option BlsData
deriving DecidableEq

/-- What the black-box transport did for one request. -/
inductive FetchOutcome where
  | response (ok : Bool) (status : Nat) (body : BlsPayload)
  | networkFault (msg : String)
deriving DecidableEq

/-- Embeds `fetchSeries`: a network fault rejects with its own message; a
response with `!res.ok` throws `new Error('BLS fetch failed (status)')`;
otherwise the JSON body is returned. -/
def fetchSeries (outcome : FetchOutcome) : Except String BlsPayload :=
  match outcome with
  | .networkFault msg => .error msg
  | .response ok status body =>
    if ok then .ok body
    else .error ("BLS fetch failed (" ++ toString status ++ ")")

/-- Models `Promise.all` on three settled promises: succeeds with all three
values iff all succeed, otherwise rejects with a rejection message.  (Real
`Promise.all` rejects with the *first* rejection to settle, which depends on
timing; this embedding picks the leftmost rejected slot.  The theorems below
depend only on whether some slot rejected, not on which message wins.) -/
def promiseAll3 (a b c : Except String BlsPayload) :
    Except String (BlsPayload × BlsPayload × BlsPayload) :=
  match a with
  | .error m => .error m
  | .ok va =>
    match b with
    | .error m => .error m
    | .ok vb =>
      match c with
      | .error m => .error m
      | .ok vc => .ok (va, vb, vc)

/-- Embeds one load cycle's `run` body after the three fetches settle:
`Promise.all` of the three `fetchSeries` calls, then on success the three
payloads pass through `parseBlsSeries` into a Ready state
`{loading: false, error: null, data: {...}}`; on any rejection the `catch`
publishes `{loading: false, error: e.message, data: null}`. -/
def runCycle (hNSA hSA coreSA : FetchOutcome) : HookState :=
  match promiseAll3 (fetchSeries hNSA) (fetchSeries hSA) (fetchSeries coreSA) with
  | .ok (pNSA, pSA, pCore) =>
    { loading := false, error := none,
      data := some
        { headlineNSA := parseBlsSeries pNSA,
          headlineSA := parseBlsSeries pSA,
          coreSA := parseBlsSeries pCore } }
  | .error msg => { loading := false, error := some msg, data := none }

/-- A transport-level failure: a non-success HTTP response or a network
fault. -/
def isTransportFailure : FetchOutcome → Prop
  | .response ok _ _ => ok = false
  | .networkFault _ => True

theorem fetchSeries_isError_of_failure {o : FetchOutcome}
    (h : isTransportFailure o) : ∃ m, fetchSeries o = .error m := by
  match o with
  | .networkFault msg => exact ⟨msg, rfl⟩
  | .response ok status body =>
    rw [isTransportFailure] at h
    exact ⟨"BLS fetch failed (" ++ toString status ++ ")", by simp [fetchSeries, h]⟩

/-- **C6.**  If any of the three concurrent fetches fails with a transport
error (network fault or non-success HTTP status), the cycle's final state is
an Error carrying a message — `{loading: false, error: some msg, data: none}` —
never a partial Ready holding only the successful series. -/
theorem runCycle_error_on_any_failure (hNSA hSA coreSA : FetchOutcome)
    (h : isTransportFailure hNSA ∨ isTransportFailure hSA ∨ isTransportFailure coreSA) :
    (∃ msg, runCycle hNSA hSA coreSA =
      { loading := false, error := some msg, data := none }) ∧
    ∀ d, runCycle hNSA hSA coreSA ≠
      { loading := false, error := none, data := some d } := by
  have hkey : ∃ msg,
      promiseAll3 (fetchSeries hNSA) (fetchSeries hSA) (fetchSeries coreSA) =
        .error msg := by
    rcases h with h | h | h
    · rcases fetchSeries_isError_of_failure h with ⟨m, hm⟩
      exact ⟨m, by simp [promiseAll3, hm]⟩
    · rcases fetchSeries_isError_of_failure h with ⟨m, hm⟩
      cases ha : fetchSeries hNSA with
      | error m' => exact ⟨m', by simp [promiseAll3, ha]⟩
      | ok va => exact ⟨m, by simp [promiseAll3, ha, hm]⟩
    · rcases fetchSeries_isError_of_failure h with ⟨m, hm⟩
      cases ha : fetchSeries hNSA with
      | error m' => exact ⟨m', by simp [promiseAll3, ha]⟩
      | ok va =>
        cases hb : fetchSeries hSA with
        | error m' => exact ⟨m', by simp [promiseAll3, ha, hb]⟩
        | ok vb => exact ⟨m, by simp [promiseAll3, ha, hb, hm]⟩
  rcases hkey with ⟨msg, hmsg⟩
  constructor
  · exact ⟨msg, by simp [runCycle, hmsg]⟩
  · intro d hcontra
    rw [runCycle, hmsg] at hcontra
    simp at hcontra

/-- Witness for C6: the middle fetch answers HTTP 500 while the other two
succeed with an empty-but-well-shaped payload; the cycle ends in the Error
state with the formatted message, and in particular not in any Ready state. -/
theorem runCycle_error_on_any_failure_witness :
    (∃ msg, runCycle (.response true 200 { Results := none })
        (.response false 500 { Results := none })
        (.response true 200 { Results := none }) =
      { loading := false, error := some msg, data := none }) ∧
    ∀ d, runCycle (.response true 200 { Results := none })
        (.response false 500 { Results := none })
        (.response true 200 { Results := none }) ≠
      { loading := false, error := none, data := some d } :=
  runCycle_error_on_any_failure _ _ _ (Or.inr (Or.inl rfl))

/-! ### Cancellation of superseded load cycles

The `useEffect` in `useBlsData` gives each load cycle a closure-local
`cancelled` flag, initially `false`.  The effect's cleanup — which React runs
exactly when the dependency `startYear` changes (or on unmount), i.e. exactly
when a newer cycle starts — sets the old cycle's flag to `true`.  Both
completion paths (`then` after `Promise.all` and `catch`) check
`if (cancelled) return;` before calling `setState`, and the check and the
`setState` run in one synchronous step of the JS event loop.

We model cycles by the order in which they start: `current` is the epoch of
the most recently started cycle, so cycle `e` has its flag set exactly when
`e < current`.  The observable events are: a new cycle starting (a
`startYear` change re-running the effect, which cancels the in-flight cycle
and synchronously publishes the Loading state), and some cycle `e`'s
completion arriving with the `HookState` it would publish. -/

/-- Orchestrator state: the epoch of the latest started cycle and the
currently published `HookState`. -/
structure OrchestratorState where
  current : Nat
  state : HookState
deriving DecidableEq

/-- Cycle `e`'s closure-local `cancelled` flag: set iff a newer cycle has
started. -/
def cycleCancelled (s : OrchestratorState) (e : Nat) : Bool :=
  decide (e < s.current)

/-- The events the hook reacts to. -/
inductive OrchEvent where
  | start
  | complete (e : Nat) (result : HookState)
deriving DecidableEq

/-- One step: a `start` runs the previous effect's cleanup (cancelling every
older cycle) and the new effect body, whose first statement is
`setState({loading: true, error: null, data: null})`; a `complete e result`
is the atomic `if (cancelled) return; setState(result)` at cycle `e`'s
completion. -/
def orchStep (s : OrchestratorState) : OrchEvent → OrchestratorState
  | .start =>
    { current := s.current + 1,
      state := { loading := true, error := none, data := none } }
  | .complete e result =>
    if cycleCancelled s e then s else { s with state := result }

/-- Run a sequence of events. -/
def runEvents (s : OrchestratorState) (evs : List OrchEvent) : OrchestratorState :=
  evs.foldl orchStep s

theorem orchStep_current_le (s : OrchestratorState) (ev : OrchEvent) :
    s.current ≤ (orchStep s ev).current := by
  match ev with
  | .start => simp [orchStep]
  | .complete e r =>
    rw [orchStep]
    by_cases h : cycleCancelled s e <;> simp [h]

theorem runEvents_current_le (s : OrchestratorState) :
    ∀ evs : List OrchEvent, s.current ≤ (runEvents s evs).current
  | [] => le_refl _
  | ev :: evs =>
    le_trans (orchStep_current_le s ev) (runEvents_current_le (orchStep s ev) evs)

/-- **C7.**  Once the triggering parameter has changed — a newer cycle has
started, so cycle `e` is cancelled (`e < current`) — cycle `e`'s eventual
completion, delivered after any further interleaving of events and whether it
carries a success or a failure state, is a no-op: it never overwrites the
`LoadState` established by the newer cycles.  Only the most recent cycle can
commit. -/
theorem stale_completion_never_overwrites (s : OrchestratorState)
    (evs : List OrchEvent) (e : Nat) (result : HookState)
    (h : e < s.current) :
    runEvents s (evs ++ [OrchEvent.complete e result]) = runEvents s evs := by
  have hfold : runEvents s (evs ++ [OrchEvent.complete e result]) =
      orchStep (runEvents s evs) (OrchEvent.complete e result) := by
    rw [runEvents, runEvents, List.foldl_append]
    rfl
  rw [hfold, orchStep]
  have hc : cycleCancelled (runEvents s evs) e = true := by
    rw [cycleCancelled, decide_eq_true_eq]
    exact lt_of_lt_of_le h (runEvents_current_le s evs)
  simp [hc]

/-- Witness for C7: cycle `0` is superseded by a `start` (epoch becomes `1`)
whose own completion publishes a Ready-with-no-data state; cycle `0`'s late
Error completion then changes nothing. -/
theorem stale_completion_never_overwrites_witness :
    runEvents { current := 1, state := { loading := true, error := none, data := none } }
      [OrchEvent.complete 1 { loading := false, error := none, data := some { headlineNSA := [], headlineSA := [], coreSA := [] } },
       OrchEvent.complete 0 { loading := false, error := some "BLS fetch failed (500)", data := none }] =
    runEvents { current := 1, state := { loading := true, error := none, data := none } }
      [OrchEvent.complete 1 { loading := false, error := none, data := some { headlineNSA := [], headlineSA := [], coreSA := [] } }] :=
  stale_completion_never_overwrites
    { current := 1, state := { loading := true, error := none, data := none } }
    [OrchEvent.complete 1 { loading := false, error := none, data := some { headlineNSA := [], headlineSA := [], coreSA := [] } }]
    0 { loading := false, error := some "BLS fetch failed (500)", data := none }
    (by decide)

/-! ## Multi-series aligner

Embedding of the `chartData` memo (`src/app/page.tsx` lines 140–152): one
`ChartRow` per point of the reference series `headlineNSA`, with the two
auxiliary fields read from `headlineSA`/`coreSA` at the same positional
index (`data.headlineSA[i]?.value ?? null`). -/

/-- Models `String(n).padStart(2, "0")`. -/
def padStartTwo (s : String) : String :=
  String.mk (List.replicate (2 - s.length) '0') ++ s

/-- Models the label
`row.date.getFullYear() + "-" + String(row.date.getMonth() + 1).padStart(2, "0")`
on the month-index surrogate `k = year*12 + (month − 1)`: the year is
`k / 12` and the month is `k % 12 + 1`.  On an Invalid Date both getters are
`NaN` and the label is `"NaN-NaN"` (`"NaN".padStart(2, "0") = "NaN"`). -/
def monthLabel : Option Int → String
  | some k => toString (k / 12) ++ "-" ++ padStartTwo (toString (k % 12 + 1))
  | none => "NaN-NaN"

/-- One chart row.  `Headline_NSA` is the reference point's value (`none` is
`NaN`).  The auxiliary fields distinguish the JS `null` produced by
`?? null` at a missing index (outer `none`) from a present-but-`NaN` value
(`some none`). -/
structure ChartRow where
  date : String
  Headline_NSA : Option ℚ
  Headline_SA : Option (Option ℚ)
  Core_SA : Option (Option ℚ)
deriving DecidableEq

/-- Embeds the `chartData` projection over the Ready data. -/
def chartData (data : BlsData) : List ChartRow :=
  List.mapIdx
    (fun i row =>
      { date := monthLabel row.date,
        Headline_NSA := row.value,
        Headline_SA := (data.headlineSA.get? i).map SeriesPoint.value,
        Core_SA := (data.coreSA.get? i).map SeriesPoint.value })
    data.headlineNSA

theorem chartData_get (data : BlsData) (i : Nat)
    (h : i < (chartData data).length) :
    (chartData data).get ⟨i, h⟩ =
      { date := monthLabel ((data.headlineNSA.get ⟨i, by
          simpa [chartData, List.length_mapIdx] using h⟩).date),
        Headline_NSA := (data.headlineNSA.get ⟨i, by
          simpa [chartData, List.length_mapIdx] using h⟩).value,
        Headline_SA := (data.headlineSA.get? i).map SeriesPoint.value,
        Core_SA := (data.coreSA.get? i).map SeriesPoint.value } := by
  simp only [chartData, List.get_eq_getElem, List.getElem_mapIdx]

/-- **C8.**  The aligner emits exactly one row per reference point: the
output length equals the reference series' length (an empty reference yields
an empty row list), and each row's auxiliary fields are read from
`headlineSA` / `coreSA` at the same positional index as the reference point
(`get? i`), not matched by calendar date. -/
theorem chartData_positional_alignment (data : BlsData) :
    (chartData data).length = data.headlineNSA.length ∧
    (data.headlineNSA = [] → chartData data = []) ∧
    ∀ i, ∀ h : i < (chartData data).length,
      ((chartData data).get ⟨i, h⟩).Headline_SA =
        (data.headlineSA.get? i).map SeriesPoint.value ∧
      ((chartData data).get ⟨i, h⟩).Core_SA =
        (data.coreSA.get? i).map SeriesPoint.value := by
  refine ⟨List.length_mapIdx, ?_, ?_⟩
  · intro hnil
    simp [chartData, hnil]
  · intro i h
    rw [chartData_get]
    exact ⟨rfl, rfl⟩

/-- Concrete data for the C8 witness: two reference points, one SA point, no
core points. -/
def exAlignData : BlsData :=
  { headlineNSA := [ { date := some 24276, value := some 300 },
                     { date := some 24277, value := some 301 } ],
    headlineSA := [ { date := some 24276, value := some 299 } ],
    coreSA := [] }

/-- Witness for C8: two rows come out, and row 1's auxiliary fields equal the
positional lookups (present for nothing: SA has no index 1, core is empty). -/
theorem chartData_positional_alignment_witness :
    (chartData exAlignData).length = exAlignData.headlineNSA.length ∧
    ∀ h : 1 < (chartData exAlignData).length,
      ((chartData exAlignData).get ⟨1, h⟩).Headline_SA =
        (exAlignData.headlineSA.get? 1).map SeriesPoint.value ∧
      ((chartData exAlignData).get ⟨1, h⟩).Core_SA =
        (exAlignData.coreSA.get? 1).map SeriesPoint.value :=
  ⟨(chartData_positional_alignment exAlignData).1,
   fun h => (chartData_positional_alignment exAlignData).2.2 1 h⟩

/-- **C9.**  At any reference index where an auxiliary series has no point
(the index is at or beyond its length), the corresponding row field is the
JS `null` ("absent", outer `none`) — never zero, and no index error occurs
(`get ⟨i, h⟩` is total here; the source's `[i]?.value ?? null` never
throws). -/
theorem chartData_missing_aux_absent (data : BlsData) (i : Nat)
    (h : i < (chartData data).length) :
    (data.headlineSA.length ≤ i →
      ((chartData data).get ⟨i, h⟩).Headline_SA = none) ∧
    (data.coreSA.length ≤ i →
      ((chartData data).get ⟨i, h⟩).Core_SA = none) := by
  rw [chartData_get]
  constructor
  · intro hlen
    rw [List.get?_eq_none.mpr hlen]
    rfl
  · intro hlen
    rw [List.get?_eq_none.mpr hlen]
    rfl

/-- Witness for C9, at the spec's concrete scenario sizes: a 13-point
reference series against a 10-point SA series and an empty core series;
row 12's auxiliary fields are both `none`. -/
theorem chartData_missing_aux_absent_witness :
    ((chartData
        { headlineNSA := (List.range 13).map (fun n => { date := some (24276 + n), value := some 300 }),
          headlineSA := (List.range 10).map (fun n => { date := some (24276 + n), value := some 299 }),
          coreSA := [] }).get ⟨12, by decide⟩).Headline_SA = none ∧
    ((chartData
        { headlineNSA := (List.range 13).map (fun n => { date := some (24276 + n), value := some 300 }),
          headlineSA := (List.range 10).map (fun n => { date := some (24276 + n), value := some 299 }),
          coreSA := [] }).get ⟨12, by decide⟩).Core_SA = none := by
  have h := chartData_missing_aux_absent
    { headlineNSA := (List.range 13).map (fun n => { date := some (24276 + n), value := some 300 }),
      headlineSA := (List.range 10).map (fun n => { date := some (24276 + n), value := some 299 }),
      coreSA := [] } 12 (by decide)
  exact ⟨h.1 (by decide), h.2 (by decide)⟩

end InflationTracker
